import Mathlib

/-!
Shallow embedding of the protogo version-resolution, caching and
platform-binary-selection pipeline (architecture.go, environment.go,
network.go, archive.go), together with theorems settling the frozen
claims about it.

Go standard-library primitives used by the code (strings.TrimPrefix,
strings.Contains, filepath.Clean / Join / Abs) are embedded at the
character-list level, faithful to their documented byte-level semantics
on ASCII input.  Ambient effects (environment variables, the filesystem,
PATH lookup, HTTP responses) are passed explicitly as parameters.
-/

deriving instance DecidableEq for Except

namespace Protogo

/-! ### Go string primitives -/

/-- Go strings.HasPrefix: s begins with pre (byte-level). -/
def stringsHasPrefix (s pre : String) : Bool :=
  decide (s.data.take pre.data.length = pre.data)

/-- Go strings.TrimPrefix: remove one leading occurrence of pre, if present. -/
def stringsTrimPrefix (s pre : String) : String :=
  if stringsHasPrefix s pre then String.mk (s.data.drop pre.data.length) else s

/-- Go strings.Contains: sub occurs somewhere inside s. -/
def stringsContains (s sub : String) : Bool :=
  (List.range (s.data.length + 1)).any
    (fun i => decide ((s.data.drop i).take sub.data.length = sub.data))

/-! ### Go path/filepath primitives (Unix separator) -/

/-- Split a character list on a separator character (kernel-reducible
replacement for String.splitOn). -/
def splitOnChar (c : Char) : List Char → List (List Char)
  | [] => [[]]
  | x :: xs =>
    if x = c then [] :: splitOnChar c xs
    else
      match splitOnChar c xs with
      | [] => [[x]]
      | ys :: rest => (x :: ys) :: rest

/-- Interleave a separator character between chunks (kernel-reducible
replacement for String.intercalate). -/
def joinWithChar (c : Char) : List (List Char) → List Char
  | [] => []
  | [x] => x
  | x :: y :: xs => x ++ c :: joinWithChar c (y :: xs)

/-- One step of filepath.Clean's element processing: the stack of output
segments is kept reversed (head = most recent segment). -/
def pathPush (rooted : Bool) (stack : List (List Char)) (seg : List Char) : List (List Char) :=
  if seg = [] ∨ seg = ['.'] then stack
  else if seg = ['.', '.'] then
    match stack with
    | [] => if rooted then [] else [seg]
    | top :: rest => if top = ['.', '.'] then seg :: top :: rest else rest
  else seg :: stack

/-- Go filepath.Clean (Unix rules): shortest lexical equivalent of p. -/
def filepathClean (p : String) : String :=
  if p = "" then "." else
  let rooted := stringsHasPrefix p "/"
  let segs := ((splitOnChar '/' p.data).foldl (pathPush rooted) []).reverse
  let body := joinWithChar '/' segs
  if rooted then String.mk ('/' :: body)
  else if body = [] then "." else String.mk body

/-- Go filepath.Join: drop leading empty elements, join with the separator,
then Clean; all elements empty gives the empty string. -/
def filepathJoin (elems : List String) : String :=
  let rest := elems.dropWhile (fun e => e = "")
  if rest.isEmpty then ""
  else filepathClean (String.mk (joinWithChar '/' (rest.map String.data)))

/-- Go filepath.Abs, with the working directory passed explicitly. -/
def filepathAbs (cwd p : String) : String :=
  if stringsHasPrefix p "/" then filepathClean p else filepathJoin [cwd, p]

/-! ### Platform identifier (architecture.go, part 006) -/

def LINUX_AMD64 : String := "linux-x86_64"
def LINUX_AMD32 : String := "linux-x86_32"
def LINUX_390_64 : String := "linux-s390_64"
def LINUX_PPCLE_64 : String := "linux-ppcle_64"
def LINUX_ARM64 : String := "linux-aarch_64"
def OSX_UNIVERSAL : String := "osx-universal_binary"
def WIN32 : String := "win32"
def WIN64 : String := "win64"

def LINUX_ANY : String := "Linux"
def MAC : String := "Mac"
def MAC_INTEL : String := "MacIntel"
def WINDOWS : String := "Windows"
def ADDITION_CLANG : String := ".clang++-18"
def ADDITION_GCC : String := ".g++-13"

/-- The two failure kinds of the platform identifier.  The Go code reports
them as strings; the message rendering is platformErrorMessage. -/
inductive PlatformError where
  | unsupportedOS (os : String)
  | unsupportedArchitecture (arch : String)
deriving DecidableEq, Repr

/-- The exact fmt.Errorf message texts of architecture.go. -/
def platformErrorMessage : PlatformError → String
  | .unsupportedOS os =>
      "the OS '" ++ os ++
        "' is either not supported by protogo or there are no protobuf binaries distributed for it"
  | .unsupportedArchitecture arch =>
      "the architecture '" ++ arch ++
        "' is either not supported by protogo or there are no protobuf binaries distributed for it"

/-- getExecutableName (part 006): append ".exe" on windows. -/
def getExecutableName (goos executable : String) : String :=
  if goos = "windows" then executable ++ ".exe" else executable

/-- getProtocOSandArch (architecture.go), with runtime.GOOS / runtime.GOARCH
passed explicitly. -/
def getProtocOSandArch (goos goarch : String) : Except PlatformError String :=
  if goos = "linux" then
    if goarch = "amd64" then .ok LINUX_AMD64
    else if goarch = "386" then .ok LINUX_AMD32
    else if goarch = "s390x" then .ok LINUX_390_64
    else if goarch = "ppc64le" then .ok LINUX_PPCLE_64
    else if goarch = "arm64" then .ok LINUX_ARM64
    else .error (.unsupportedArchitecture goarch)
  else if goos = "darwin" then
    if goarch = "amd64" ∨ goarch = "arm64" then .ok OSX_UNIVERSAL
    else .error (.unsupportedArchitecture goarch)
  else if goos = "windows" then
    if goarch = "386" ∨ goarch = "arm" then .ok WIN32
    else if goarch = "amd64" ∨ goarch = "arm64" then .ok WIN64
    else .error (.unsupportedArchitecture goarch)
  else .error (.unsupportedOS goos)

/-- getFlatcOSandAddition (part 006): system fragment plus toolchain-ABI
addition; the distro-variant environment variable PROTOGO_FLATC_DISTRO is
passed as an Option (none = unset). -/
def getFlatcOSandAddition (goos goarch : String) (distroEnv : Option String) :
    Except PlatformError (String × String) :=
  if goos = "linux" then
    let addition :=
      match distroEnv with
      | some value =>
          if value = "g++" then ADDITION_GCC
          else if value = "clang" then ADDITION_CLANG
          else ""
      | none => ADDITION_GCC
    .ok (LINUX_ANY, addition)
  else if goos = "darwin" then
    if goarch = "amd64" then .ok (MAC_INTEL, "")
    else if goarch = "arm64" then .ok (MAC, "")
    else .error (.unsupportedArchitecture goarch)
  else if goos = "windows" then .ok (WINDOWS, "")
  else .error (.unsupportedOS goos)

/-! ### Release metadata client (network.go) -/

/-- A generic JSON value, the shape Go's encoding/json decodes into
map[string]any / []any / string / float64 / bool / nil. -/
inductive GoJson where
  | null
  | boolean (b : Bool)
  | number (n : Int)
  | str (s : String)
  | array (elems : List GoJson)
  | object (fields : List (String × GoJson))

/-- getLatestProtocReleaseTag (network.go): the decoded response body is
passed explicitly — none models an undecodable body (including a non-object
top level), some m the decoded generic key-value document. -/
def getLatestProtocReleaseTag (body : Option (List (String × GoJson))) :
    Except String String :=
  match body with
  | none => .error "latest protobuf release info parsing error"
  | some responseJSON =>
    match responseJSON.lookup "tag_name" with
    | none => .error "latest protobuf release info 'tag_name' not found"
    | some (GoJson.str tagName) => .ok tagName
    | some _ => .error "latest protobuf release info 'tag_name' field is not string"

/-- getLatestFlatcReleaseTag (network.go): identical logic against the
flatbuffers release listing. -/
def getLatestFlatcReleaseTag (body : Option (List (String × GoJson))) :
    Except String String :=
  match body with
  | none => .error "latest flatbuffers release info parsing error"
  | some responseJSON =>
    match responseJSON.lookup "tag_name" with
    | none => .error "latest flatbuffers release info 'tag_name' not found"
    | some (GoJson.str tagName) => .ok tagName
    | some _ => .error "latest flatbuffers release info 'tag_name' field is not string"

/-! ### Cache resolver (environment.go) -/

/-- What os.Stat reports about an existing path. -/
structure FileInfo where
  isDir : Bool
deriving DecidableEq, Repr

/-- The tuple getProtocCache / getFlatcCache return, plus a networkCalled
instrumentation bit recording whether the release-listing client was
consulted. -/
structure CacheOutcome where
  versionTag : Option String
  cacheDir : Option String
  needsDownload : Bool
  errored : Bool
  networkCalled : Bool
deriving DecidableEq, Repr

/-- The per-version protoc cache directory, filepath.Join(cacheDir,
fmt.Sprintf("protoc-%s", versionTag)). -/
def protocCachePath (cacheDir versionTag : String) : String :=
  filepathJoin [cacheDir, "protoc-" ++ versionTag]

/-- The expected protoc executable, nested under bin/ inside the cache
directory. -/
def protocExecPath (cacheDir versionTag goos : String) : String :=
  filepathJoin [protocCachePath cacheDir versionTag, "bin", getExecutableName goos "protoc"]

/-- The per-version flatc cache directory, filepath.Join(cacheDir,
fmt.Sprintf("flatc-%s", versionTag)). -/
def flatcCachePath (cacheDir versionTag : String) : String :=
  filepathJoin [cacheDir, "flatc-" ++ versionTag]

/-- The expected flatc executable, directly inside the cache directory (no
bin/ nesting). -/
def flatcExecPath (cacheDir versionTag goos : String) : String :=
  filepathJoin [flatcCachePath cacheDir versionTag, getExecutableName goos "flatc"]

/-- Lines 152-161 of environment.go: normalize the tag, build the cache and
executable paths, probe the filesystem (os.Stat error means needsDownload). -/
def protocTail (tag : String) (fs : String → Option FileInfo)
    (goos cacheDir : String) (net : Bool) : CacheOutcome :=
  let versionTag := stringsTrimPrefix tag "v"
  let protocCache := protocCachePath cacheDir versionTag
  let protocExec := protocExecPath cacheDir versionTag goos
  match fs protocExec with
  | none => ⟨some versionTag, some protocCache, true, false, net⟩
  | some _ => ⟨some versionTag, some protocCache, false, false, net⟩

/-- getProtocCache (environment.go).  The ambient environment is passed
explicitly: envVersion is os.LookupEnv(key), protocOnPath whether
exec.LookPath("protoc") succeeds, latest the outcome of
getLatestProtocReleaseTag, fs the os.Stat oracle. -/
def getProtocCache (envVersion : Option String) (protocOnPath : Bool)
    (latest : Except String String) (fs : String → Option FileInfo)
    (goos cacheDir : String) : CacheOutcome :=
  let versionTag := match envVersion with | some value => value | none => "latest"
  if versionTag = "latest" then
    match latest with
    | .error _ => ⟨none, none, false, true, true⟩
    | .ok latestTag => protocTail latestTag fs goos cacheDir true
  else if versionTag = "local" then
    if protocOnPath then ⟨some versionTag, none, false, false, false⟩
    else ⟨none, none, false, true, false⟩
  else protocTail versionTag fs goos cacheDir false

/-- Lines 197-206 of environment.go: like protocTail but the executable is
not nested under bin/, and the probe demands that the stat'ed entry be a
directory (err != nil || !dir.IsDir() sets needsDownload). -/
def flatcTail (tag : String) (fs : String → Option FileInfo)
    (goos cacheDir : String) (net : Bool) : CacheOutcome :=
  let versionTag := stringsTrimPrefix tag "v"
  let flatcCache := flatcCachePath cacheDir versionTag
  let flatcExec := flatcExecPath cacheDir versionTag goos
  match fs flatcExec with
  | none => ⟨some versionTag, some flatcCache, true, false, net⟩
  | some dir =>
    if dir.isDir then ⟨some versionTag, some flatcCache, false, false, net⟩
    else ⟨some versionTag, some flatcCache, true, false, net⟩

/-- getFlatcCache (environment.go), same conventions as getProtocCache. -/
def getFlatcCache (envVersion : Option String) (flatcOnPath : Bool)
    (latest : Except String String) (fs : String → Option FileInfo)
    (goos cacheDir : String) : CacheOutcome :=
  let versionTag := match envVersion with | some value => value | none => "latest"
  if versionTag = "latest" then
    match latest with
    | .error _ => ⟨none, none, false, true, true⟩
    | .ok latestTag => flatcTail latestTag fs goos cacheDir true
  else if versionTag = "local" then
    if flatcOnPath then ⟨some versionTag, none, false, false, false⟩
    else ⟨none, none, false, true, false⟩
  else flatcTail versionTag fs goos cacheDir false

/-! ### Archive extractor (archive.go) -/

/-- The filesystem action extractItem performs when its containment guard
admits the entry. -/
inductive ExtractAction where
  | mkdir (path : String)
  | writeFile (path : String)
deriving DecidableEq, Repr

/-- extractItem (archive.go): resolve the entry's destination as
filepath.Abs(filepath.Join(dest, name)), admit it iff
strings.Contains(fpath, dest) — the code's actual containment guard — and
report the action taken at the resolved path. -/
def extractItem (cwd dest name : String) (entryIsDir : Bool) :
    Except String ExtractAction :=
  let fpath := filepathAbs cwd (filepathJoin [dest, name])
  if stringsContains fpath dest then
    if entryIsDir then .ok (.mkdir fpath) else .ok (.writeFile fpath)
  else .error ("error extracting path: " ++ fpath ++ " (" ++ dest ++ ")")

/-- Modelled from the spec: the path-segment-aware containment test the
security invariant of section 4.5 demands ("resolve both paths to
absolute/canonical form, then compare path segments") — fpath stays within
destAbs iff it is destAbs itself or destAbs followed by a separator is a
prefix of it. -/
def segmentAwareWithin (destAbs fpath : String) : Bool :=
  decide (fpath = destAbs) || stringsHasPrefix fpath (destAbs ++ "/")

/-! ### Archive fetcher (network.go download functions) -/

/-- PROTOC_ZIP_NAME template "protoc-%s-%s.zip". -/
def protocZipName (version platform : String) : String :=
  "protoc-" ++ version ++ "-" ++ platform ++ ".zip"

/-- FLATC_ZIP_NAME template "%s.flatc.binary%s.zip". -/
def flatcZipName (system addition : String) : String :=
  system ++ ".flatc.binary" ++ addition ++ ".zip"

/-- PROTOC_BINARY_URL template. -/
def protocBinaryUrl (version file : String) : String :=
  "https://github.com/protocolbuffers/protobuf/releases/download/v" ++ version ++ "/" ++ file

/-- FLATC_BINARY_URL template. -/
def flatcBinaryUrl (version file : String) : String :=
  "https://github.com/google/flatbuffers/releases/download/v" ++ version ++ "/" ++ file

/-- os.Remove on a multiset of present paths. -/
def removeFile (path : String) (fs : List String) : List String :=
  fs.filter (fun p => p ≠ path)

/-- One run of a download function: its returned executable path or wrapped
error message, the final set of present paths, and whether the temporary
archive file was created during the run. -/
structure DownloadRun where
  result : Except String String
  fs : List String
  tempCreated : Bool

/-- downloadProtocVersion (network.go).  I/O oracles: requestOk / createOk /
copyOk / unzipOk tell whether the HTTP GET, os.Create, io.Copy and unzip
steps succeed; unzipEffect is whatever unzip writes into the filesystem.
Once os.Create succeeds, the deferred os.Remove(protocArchive) runs on
every exit path. -/
def downloadProtocVersion (goos goarch : String)
    (requestOk createOk copyOk unzipOk : Bool)
    (unzipEffect : List String → List String)
    (tmpDir version cacheDir : String) (fs : List String) : DownloadRun :=
  match getProtocOSandArch goos goarch with
  | .error e =>
    ⟨.error ("error parsing current OS and architecture: " ++ platformErrorMessage e), fs, false⟩
  | .ok platform =>
    let protocZip := protocZipName version platform
    let protocDownloadUrl := protocBinaryUrl version protocZip
    if requestOk = false then
      ⟨.error ("accessing URL '" ++ protocDownloadUrl ++ "' error"), fs, false⟩ else
    let protocArchive := filepathJoin [tmpDir, protocZip]
    if createOk = false then
      ⟨.error ("creating file '" ++ protocArchive ++ "' error"), fs, false⟩ else
    let fs1 := protocArchive :: fs
    if copyOk = false then ⟨.error "response copying error", removeFile protocArchive fs1, true⟩ else
    let fs2 := unzipEffect fs1
    if unzipOk = false then
      ⟨.error "protoc archive unzipping error", removeFile protocArchive fs2, true⟩
    else ⟨.ok (filepathJoin [cacheDir, "bin", getExecutableName goos "protoc"]),
      removeFile protocArchive fs2, true⟩

/-- downloadFlatcVersion (network.go), same conventions; the platform comes
from getFlatcOSandAddition and the executable is not nested under bin/. -/
def downloadFlatcVersion (goos goarch : String) (distroEnv : Option String)
    (requestOk createOk copyOk unzipOk : Bool)
    (unzipEffect : List String → List String)
    (tmpDir version cacheDir : String) (fs : List String) : DownloadRun :=
  match getFlatcOSandAddition goos goarch distroEnv with
  | .error e =>
    ⟨.error ("error parsing current OS and architecture: " ++ platformErrorMessage e), fs, false⟩
  | .ok (system, addition) =>
    let flatcZip := flatcZipName system addition
    let flatcDownloadUrl := flatcBinaryUrl version flatcZip
    if requestOk = false then
      ⟨.error ("accessing URL '" ++ flatcDownloadUrl ++ "' error"), fs, false⟩ else
    let flatcArchive := filepathJoin [tmpDir, flatcZip]
    if createOk = false then
      ⟨.error ("creating file '" ++ flatcArchive ++ "' error"), fs, false⟩ else
    let fs1 := flatcArchive :: fs
    if copyOk = false then ⟨.error "response copying error", removeFile flatcArchive fs1, true⟩ else
    let fs2 := unzipEffect fs1
    if unzipOk = false then
      ⟨.error "flatc archive unzipping error", removeFile flatcArchive fs2, true⟩
    else ⟨.ok (filepathJoin [cacheDir, getExecutableName goos "flatc"]),
      removeFile flatcArchive fs2, true⟩

/-! ### Helper lemmas -/

/-- Two strings built by appending onto literals that differ at character
index 4 are never equal (distinguishes the two platform error messages). -/
lemma platformErrorMessage_ne (os arch : String) :
    platformErrorMessage (.unsupportedOS os) ≠
      platformErrorMessage (.unsupportedArchitecture arch) := by
  intro h
  have hd := congrArg String.data h
  simp only [platformErrorMessage, String.data_append] at hd
  have h4 := congrArg (fun l : List Char => l[4]?) hd
  simp only at h4
  have hA : (4 : Nat) < ("the OS '".data).length := by decide
  have hB : (4 : Nat) < ("the architecture '".data).length := by decide
  rw [List.append_assoc, List.append_assoc, List.getElem?_append_left hA,
    List.getElem?_append_left hB] at h4
  exact absurd h4 (by decide)

/-- A removed path is gone from the whole multiset. -/
lemma not_mem_removeFile (p : String) (fs : List String) : p ∉ removeFile p fs := by
  intro h
  rcases List.mem_filter.mp h with ⟨-, hp⟩
  exact (of_decide_eq_true hp) rfl

/-- Stripping one leading "v" is idempotent on any string that does not
begin with "vv". -/
lemma stringsTrimPrefix_v_idem (v : String) (h : stringsHasPrefix v "vv" = false) :
    stringsTrimPrefix (stringsTrimPrefix v "v") "v" = stringsTrimPrefix v "v" := by
  have hlen : ("v" : String).data.length = 1 := rfl
  have hdat : ("v" : String).data = ['v'] := rfl
  by_cases h1 : stringsHasPrefix v "v" = true
  · have h1' : v.data.take 1 = ['v'] := by
      simpa only [stringsHasPrefix, hlen, hdat, decide_eq_true_eq] using h1
    have h2' : ¬ v.data.take 2 = ['v', 'v'] := by
      intro hc
      have : stringsHasPrefix v "vv" = true := by
        simp only [stringsHasPrefix, decide_eq_true_eq]
        exact hc
      rw [this] at h
      exact Bool.noConfusion h
    have e1 : stringsTrimPrefix v "v" = String.mk (v.data.drop 1) := by
      simp only [stringsTrimPrefix, h1, if_true, hlen]
    rw [e1]
    have hdrop : stringsHasPrefix (String.mk (v.data.drop 1)) "v" = false := by
      simp only [stringsHasPrefix, hlen, hdat, decide_eq_false_iff_not]
      cases e : v.data with
      | nil => simp [e] at h1'
      | cons a l =>
        have ha : a = 'v' := by simpa [e] using h1'
        intro hc
        simp only [List.drop_one, List.tail_cons] at hc
        exact h2' (by simp [e, ha]; simpa using hc)
    simp only [stringsTrimPrefix, hdrop, Bool.false_eq_true, if_false]
  · have h1f : stringsHasPrefix v "v" = false := by
      simpa using h1
    simp only [stringsTrimPrefix, h1f, Bool.false_eq_true, if_false]

/-- C1: the claim states extractItem rejects every entry whose resolved
path escapes destDir with a path-segment-aware containment test.  The code
instead guards with strings.Contains(fpath, dest): extracting the entry
"../dest2/evil" into destination "/tmp/dest" resolves to the sibling path
"/tmp/dest2/evil", which the guard admits (the destination string is a
substring) although segment-aware containment rejects it, so a file is
written outside the destination root; the plain traversal "../../evil" is
rejected, showing the guard that is present. -/
theorem C1_substring_guard_admits_sibling_escape :
    extractItem "/" "/tmp/dest" "../dest2/evil" false =
      .ok (.writeFile "/tmp/dest2/evil") ∧
    segmentAwareWithin "/tmp/dest" "/tmp/dest2/evil" = false ∧
    extractItem "/" "/tmp/dest" "../../evil" false =
      .error "error extracting path: /evil (/tmp/dest)" :=
  ⟨by decide, by decide, by decide⟩

/-- C2: the claim states needsDownload is true iff the expected executable
path does not exist.  getProtocCache conforms, but getFlatcCache demands
that the stat'ed entry be a directory: with the flatc executable present
as a regular file at /cache/flatc-25.1/flatc, the resolver still reports
needsDownload = true, while the same filesystem shape at the protoc paths
yields needsDownload = false. -/
theorem C2_flatc_probe_redownloads_existing_executable :
    getFlatcCache (some "25.1") true (.error "unused")
      (fun p => if p = "/cache/flatc-25.1/flatc" then some ⟨false⟩ else none)
      "linux" "/cache" =
      ⟨some "25.1", some "/cache/flatc-25.1", true, false, false⟩ ∧
    (fun p => if p = "/cache/flatc-25.1/flatc" then some (⟨false⟩ : FileInfo) else none)
      (flatcExecPath "/cache" "25.1" "linux") = some ⟨false⟩ ∧
    getProtocCache (some "25.1") true (.error "unused")
      (fun p => if p = "/cache/protoc-25.1/bin/protoc" then some ⟨false⟩ else none)
      "linux" "/cache" =
      ⟨some "25.1", some "/cache/protoc-25.1", false, false, false⟩ :=
  ⟨by decide, by decide, by decide⟩

/-- C3 counterexample: version-tag normalization (stripping one leading
"v", strings.TrimPrefix) is not idempotent on every string — at "vv1.2.3"
one pass gives "v1.2.3" and a second pass strips again to "1.2.3". -/
theorem C3_idempotence_fails_on_double_v :
    ¬ stringsTrimPrefix (stringsTrimPrefix "vv1.2.3" "v") "v" =
        stringsTrimPrefix "vv1.2.3" "v" := by
  decide

/-- C3 amended: normalization is idempotent on every tag that does not
begin with "vv" (exactly what the counterexample forces), with
normalize("v1.2.3") = normalize("1.2.3") = "1.2.3"; for every resolved
non-"local" explicit request both resolvers build the install directory as
cacheRoot/protoc-<normalizedTag> resp. cacheRoot/flatc-<normalizedTag>,
and the protoc family nests its executable under bin/ while the flatc
family does not. -/
theorem C3_normalization_and_cache_layout :
    (∀ v : String, stringsHasPrefix v "vv" = false →
      stringsTrimPrefix (stringsTrimPrefix v "v") "v" = stringsTrimPrefix v "v") ∧
    stringsTrimPrefix "v1.2.3" "v" = "1.2.3" ∧
    stringsTrimPrefix "1.2.3" "v" = "1.2.3" ∧
    (∀ (tag : String) (onPath : Bool) (latest : Except String String)
        (fs : String → Option FileInfo) (goos cacheDir : String),
      tag ≠ "latest" → tag ≠ "local" →
      (getProtocCache (some tag) onPath latest fs goos cacheDir).cacheDir =
          some (protocCachePath cacheDir (stringsTrimPrefix tag "v")) ∧
        (getFlatcCache (some tag) onPath latest fs goos cacheDir).cacheDir =
          some (flatcCachePath cacheDir (stringsTrimPrefix tag "v"))) ∧
    protocExecPath "/cache" "31.0" "linux" = "/cache/protoc-31.0/bin/protoc" ∧
    flatcExecPath "/cache" "31.0" "linux" = "/cache/flatc-31.0/flatc" := by
  refine ⟨stringsTrimPrefix_v_idem, by decide, by decide, ?_, by decide, by decide⟩
  intro tag onPath latest fs goos cacheDir h1 h2
  constructor
  · simp only [getProtocCache, protocTail, if_neg h1, if_neg h2]
    cases fs (protocExecPath cacheDir (stringsTrimPrefix tag "v") goos) <;> rfl
  · simp only [getFlatcCache, flatcTail, if_neg h1, if_neg h2]
    cases e : fs (flatcExecPath cacheDir (stringsTrimPrefix tag "v") goos) with
    | none => rfl
    | some d => cases hd : d.isDir <;> simp [hd]

/-- C3 amended, witnessed at concrete inputs: "x31.0" does not begin with
"vv" and normalization is idempotent on it; the explicit pin "v31.0" is
neither "latest" nor "local" and yields the documented directories. -/
theorem C3_normalization_witness :
    stringsTrimPrefix (stringsTrimPrefix "x31.0" "v") "v" =
        stringsTrimPrefix "x31.0" "v" ∧
    (getProtocCache (some "v31.0") true (.error "unused") (fun _ => none)
        "linux" "/cache").cacheDir = some (protocCachePath "/cache" "31.0") ∧
    (getFlatcCache (some "v31.0") true (.error "unused") (fun _ => none)
        "linux" "/cache").cacheDir = some (flatcCachePath "/cache" "31.0") := by
  refine ⟨C3_normalization_and_cache_layout.1 "x31.0" (by decide), ?_, ?_⟩
  · have h := (C3_normalization_and_cache_layout.2.2.2.1 "v31.0" true (.error "unused")
      (fun _ => none) "linux" "/cache" (by decide) (by decide)).1
    rwa [show stringsTrimPrefix "v31.0" "v" = "31.0" by decide] at h
  · have h := (C3_normalization_and_cache_layout.2.2.2.1 "v31.0" true (.error "unused")
      (fun _ => none) "linux" "/cache" (by decide) (by decide)).2
    rwa [show stringsTrimPrefix "v31.0" "v" = "31.0" by decide] at h

/-- C4: when the requested version is exactly "local", each resolver
returns the tag "local", no install directory, needsDownload = false and
no error when the family's canonical executable is found on PATH, and an
error with no usable result when it is not; no release-listing request is
made either way. -/
theorem C4_local_version_resolution :
    ∀ (onPath : Bool) (latest : Except String String)
      (fs : String → Option FileInfo) (goos cacheDir : String),
      getProtocCache (some "local") onPath latest fs goos cacheDir =
        (if onPath then ⟨some "local", none, false, false, false⟩
         else ⟨none, none, false, true, false⟩) ∧
      getFlatcCache (some "local") onPath latest fs goos cacheDir =
        (if onPath then ⟨some "local", none, false, false, false⟩
         else ⟨none, none, false, true, false⟩) := by
  intro onPath latest fs goos cacheDir
  cases onPath <;> simp [getProtocCache, getFlatcCache]

/-- C4 witness: concrete instantiation with protoc present on PATH. -/
theorem C4_local_witness :
    getProtocCache (some "local") true (.error "unused") (fun _ => none)
        "linux" "/cache" = ⟨some "local", none, false, false, false⟩ ∧
    getFlatcCache (some "local") false (.error "unused") (fun _ => none)
        "linux" "/cache" = ⟨none, none, false, true, false⟩ := by
  have h1 := (C4_local_version_resolution true (.error "unused") (fun _ => none)
    "linux" "/cache").1
  have h2 := (C4_local_version_resolution false (.error "unused") (fun _ => none)
    "linux" "/cache").2
  exact ⟨by simpa using h1, by simpa using h2⟩

/-- C5: getProtocOSandArch maps every supported (OS, architecture) pair to
exactly the documented fragment; any OS outside linux/darwin/windows gives
the unsupported-OS error, a recognized OS with an unlisted architecture
gives the distinct unsupported-architecture error, and the two error
messages can never coincide. -/
theorem C5_protoc_platform_table :
    getProtocOSandArch "linux" "amd64" = .ok "linux-x86_64" ∧
    getProtocOSandArch "linux" "386" = .ok "linux-x86_32" ∧
    getProtocOSandArch "linux" "s390x" = .ok "linux-s390_64" ∧
    getProtocOSandArch "linux" "ppc64le" = .ok "linux-ppcle_64" ∧
    getProtocOSandArch "linux" "arm64" = .ok "linux-aarch_64" ∧
    getProtocOSandArch "darwin" "amd64" = .ok "osx-universal_binary" ∧
    getProtocOSandArch "darwin" "arm64" = .ok "osx-universal_binary" ∧
    getProtocOSandArch "windows" "386" = .ok "win32" ∧
    getProtocOSandArch "windows" "arm" = .ok "win32" ∧
    getProtocOSandArch "windows" "amd64" = .ok "win64" ∧
    getProtocOSandArch "windows" "arm64" = .ok "win64" ∧
    (∀ goos goarch, goos ≠ "linux" → goos ≠ "darwin" → goos ≠ "windows" →
      getProtocOSandArch goos goarch = .error (.unsupportedOS goos)) ∧
    (∀ goarch, goarch ≠ "amd64" → goarch ≠ "386" → goarch ≠ "s390x" →
        goarch ≠ "ppc64le" → goarch ≠ "arm64" →
      getProtocOSandArch "linux" goarch = .error (.unsupportedArchitecture goarch)) ∧
    (∀ goarch, goarch ≠ "amd64" → goarch ≠ "arm64" →
      getProtocOSandArch "darwin" goarch = .error (.unsupportedArchitecture goarch)) ∧
    (∀ goarch, goarch ≠ "386" → goarch ≠ "arm" → goarch ≠ "amd64" → goarch ≠ "arm64" →
      getProtocOSandArch "windows" goarch = .error (.unsupportedArchitecture goarch)) ∧
    (∀ os arch, platformErrorMessage (.unsupportedOS os) ≠
      platformErrorMessage (.unsupportedArchitecture arch)) := by
  refine ⟨by decide, by decide, by decide, by decide, by decide, by decide, by decide,
    by decide, by decide, by decide, by decide, ?_, ?_, ?_, ?_, platformErrorMessage_ne⟩
  · intro goos goarch h1 h2 h3
    simp [getProtocOSandArch, h1, h2, h3]
  · intro goarch h1 h2 h3 h4 h5
    simp [getProtocOSandArch, h1, h2, h3, h4, h5]
  · intro goarch h1 h2
    simp [getProtocOSandArch, h1, h2]
  · intro goarch h1 h2 h3 h4
    simp [getProtocOSandArch, h1, h2, h3, h4]

/-- C5 witness: the error clauses of C5_protoc_platform_table applied at
concrete unsupported inputs. -/
theorem C5_platform_errors_witness :
    getProtocOSandArch "plan9" "amd64" = .error (.unsupportedOS "plan9") ∧
    getProtocOSandArch "linux" "riscv64" = .error (.unsupportedArchitecture "riscv64") ∧
    getProtocOSandArch "darwin" "386" = .error (.unsupportedArchitecture "386") ∧
    getProtocOSandArch "windows" "s390x" = .error (.unsupportedArchitecture "s390x") ∧
    platformErrorMessage (.unsupportedOS "plan9") ≠
      platformErrorMessage (.unsupportedArchitecture "riscv64") := by
  obtain ⟨-, -, -, -, -, -, -, -, -, -, -, hOS, hLin, hDar, hWin, hMsg⟩ :=
    C5_protoc_platform_table
  exact ⟨hOS "plan9" "amd64" (by decide) (by decide) (by decide),
    hLin "riscv64" (by decide) (by decide) (by decide) (by decide) (by decide),
    hDar "386" (by decide) (by decide),
    hWin "s390x" (by decide) (by decide) (by decide) (by decide),
    hMsg "plan9" "riscv64"⟩

/-- C6: getFlatcOSandAddition returns Linux with the g++ addition by
default (environment variable unset) and the clang addition when the
variable requests clang; MacIntel with no addition on darwin/amd64, Mac
with no addition on darwin/arm64, Windows with no addition on windows;
an unsupported OS and an unsupported architecture on a supported OS are
reported as distinct errors. -/
theorem C6_flatc_platform_table :
    (∀ goarch, getFlatcOSandAddition "linux" goarch none = .ok ("Linux", ".g++-13")) ∧
    (∀ goarch, getFlatcOSandAddition "linux" goarch (some "clang") =
      .ok ("Linux", ".clang++-18")) ∧
    (∀ goarch, getFlatcOSandAddition "linux" goarch (some "g++") =
      .ok ("Linux", ".g++-13")) ∧
    (∀ env, getFlatcOSandAddition "darwin" "amd64" env = .ok ("MacIntel", "")) ∧
    (∀ env, getFlatcOSandAddition "darwin" "arm64" env = .ok ("Mac", "")) ∧
    (∀ goarch env, getFlatcOSandAddition "windows" goarch env = .ok ("Windows", "")) ∧
    (∀ goos goarch env, goos ≠ "linux" → goos ≠ "darwin" → goos ≠ "windows" →
      getFlatcOSandAddition goos goarch env = .error (.unsupportedOS goos)) ∧
    (∀ goarch env, goarch ≠ "amd64" → goarch ≠ "arm64" →
      getFlatcOSandAddition "darwin" goarch env = .error (.unsupportedArchitecture goarch)) ∧
    (∀ os arch, platformErrorMessage (.unsupportedOS os) ≠
      platformErrorMessage (.unsupportedArchitecture arch)) := by
  refine ⟨?_, ?_, ?_, ?_, ?_, ?_, ?_, ?_, platformErrorMessage_ne⟩
  · intro goarch; simp [getFlatcOSandAddition, ADDITION_GCC, LINUX_ANY]
  · intro goarch; simp [getFlatcOSandAddition, ADDITION_CLANG, LINUX_ANY]
  · intro goarch; simp [getFlatcOSandAddition, ADDITION_GCC, LINUX_ANY]
  · intro env; simp [getFlatcOSandAddition, MAC_INTEL]
  · intro env; simp [getFlatcOSandAddition, MAC]
  · intro goarch env; simp [getFlatcOSandAddition, WINDOWS]
  · intro goos goarch env h1 h2 h3; simp [getFlatcOSandAddition, h1, h2, h3]
  · intro goarch env h1 h2; simp [getFlatcOSandAddition, h1, h2]

/-- C6 witness: the error clauses of C6_flatc_platform_table applied at
concrete unsupported inputs. -/
theorem C6_flatc_platform_witness :
    getFlatcOSandAddition "plan9" "amd64" none = .error (.unsupportedOS "plan9") ∧
    getFlatcOSandAddition "darwin" "ppc64le" none =
      .error (.unsupportedArchitecture "ppc64le") := by
  obtain ⟨-, -, -, -, -, -, hOS, hDar, -⟩ := C6_flatc_platform_table
  exact ⟨hOS "plan9" "amd64" none (by decide) (by decide) (by decide),
    hDar "ppc64le" none (by decide) (by decide)⟩

/-- C9: on linux, a distro-variant value other than g++ or clang leaves the
addition fragment empty — neither default nor clang suffix — with no
error, and the resulting flatc archive name is Linux.flatc.binary.zip. -/
theorem C9_unrecognized_distro_empty_addition :
    ∀ (goarch value : String), value ≠ "g++" → value ≠ "clang" →
      getFlatcOSandAddition "linux" goarch (some value) = .ok ("Linux", "") ∧
      flatcZipName "Linux" "" = "Linux.flatc.binary.zip" := by
  intro goarch value h1 h2
  exact ⟨by simp [getFlatcOSandAddition, LINUX_ANY, h1, h2], by decide⟩

/-- C9 witness: the unrecognized value "icc" on linux/amd64. -/
theorem C9_unrecognized_distro_witness :
    getFlatcOSandAddition "linux" "amd64" (some "icc") = .ok ("Linux", "") ∧
    flatcZipName "Linux" "" = "Linux.flatc.binary.zip" :=
  C9_unrecognized_distro_empty_addition "amd64" "icc" (by decide) (by decide)

/-- C7: both latest-release-tag functions return exactly the string stored
in the decoded body's tag_name field, unchanged (a leading "v" is kept),
and return a descriptive error — never a tag — precisely when the body is
not decodable, the tag_name field is absent, or its value is not a
string. -/
theorem C7_latest_tag_extraction :
    (∀ (body : Option (List (String × GoJson))) (t : String),
      getLatestProtocReleaseTag body = .ok t ↔
        ∃ m, body = some m ∧ m.lookup "tag_name" = some (GoJson.str t)) ∧
    (∀ (body : Option (List (String × GoJson))) (t : String),
      getLatestFlatcReleaseTag body = .ok t ↔
        ∃ m, body = some m ∧ m.lookup "tag_name" = some (GoJson.str t)) ∧
    getLatestProtocReleaseTag none =
      .error "latest protobuf release info parsing error" ∧
    getLatestFlatcReleaseTag none =
      .error "latest flatbuffers release info parsing error" ∧
    (∀ m, m.lookup "tag_name" = none →
      getLatestProtocReleaseTag (some m) =
        .error "latest protobuf release info 'tag_name' not found" ∧
      getLatestFlatcReleaseTag (some m) =
        .error "latest flatbuffers release info 'tag_name' not found") ∧
    (∀ m j, m.lookup "tag_name" = some j → (∀ s, j ≠ GoJson.str s) →
      getLatestProtocReleaseTag (some m) =
        .error "latest protobuf release info 'tag_name' field is not string" ∧
      getLatestFlatcReleaseTag (some m) =
        .error "latest flatbuffers release info 'tag_name' field is not string") ∧
    getLatestProtocReleaseTag (some [("tag_name", GoJson.str "v31.0")]) = .ok "v31.0" ∧
    getLatestFlatcReleaseTag (some [("tag_name", GoJson.str "v25.2.10")]) = .ok "v25.2.10" := by
  refine ⟨?_, ?_, rfl, rfl, ?_, ?_, rfl, rfl⟩
  · intro body t
    cases body with
    | none => simp [getLatestProtocReleaseTag]
    | some m =>
      cases e : m.lookup "tag_name" with
      | none => simp [getLatestProtocReleaseTag, e]
      | some j => cases j <;> simp [getLatestProtocReleaseTag, e]
  · intro body t
    cases body with
    | none => simp [getLatestFlatcReleaseTag]
    | some m =>
      cases e : m.lookup "tag_name" with
      | none => simp [getLatestFlatcReleaseTag, e]
      | some j => cases j <;> simp [getLatestFlatcReleaseTag, e]
  · intro m e
    exact ⟨by simp [getLatestProtocReleaseTag, e], by simp [getLatestFlatcReleaseTag, e]⟩
  · intro m j e hj
    cases j with
    | str s => exact absurd rfl (hj s)
    | null => exact ⟨by simp [getLatestProtocReleaseTag, e], by simp [getLatestFlatcReleaseTag, e]⟩
    | boolean b => exact ⟨by simp [getLatestProtocReleaseTag, e], by simp [getLatestFlatcReleaseTag, e]⟩
    | number n => exact ⟨by simp [getLatestProtocReleaseTag, e], by simp [getLatestFlatcReleaseTag, e]⟩
    | array l => exact ⟨by simp [getLatestProtocReleaseTag, e], by simp [getLatestFlatcReleaseTag, e]⟩
    | object l => exact ⟨by simp [getLatestProtocReleaseTag, e], by simp [getLatestFlatcReleaseTag, e]⟩

/-- C7 witness: the hypothesis-bearing clauses applied at a concrete body
with no tag_name and at one whose tag_name is a number. -/
theorem C7_latest_tag_witness :
    getLatestProtocReleaseTag (some [("name", GoJson.str "x")]) =
      .error "latest protobuf release info 'tag_name' not found" ∧
    getLatestFlatcReleaseTag (some [("tag_name", GoJson.number 3)]) =
      .error "latest flatbuffers release info 'tag_name' field is not string" := by
  obtain ⟨-, -, -, -, hAbsent, hWrong, -, -⟩ := C7_latest_tag_extraction
  refine ⟨(hAbsent [("name", GoJson.str "x")] rfl).1,
    (hWrong [("tag_name", GoJson.number 3)] (GoJson.number 3) rfl ?_).2⟩
  intro s h
  exact GoJson.noConfusion h

/-- C8: in every run of downloadProtocVersion / downloadFlatcVersion in
which the temporary archive file is created, that file is absent from the
filesystem when the call returns, whether the copy and unpack steps
succeed or fail; on success the returned executable path is exactly the
family's documented in-cache path (bin/protoc for protoc, flatc at the
cache root for flatc, with the ".exe" suffix exactly on windows). -/
theorem C8_download_temp_cleanup_and_path :
    ∀ (goos goarch : String) (distroEnv : Option String)
      (requestOk createOk copyOk unzipOk : Bool)
      (unzipEffect : List String → List String)
      (tmpDir version cacheDir : String) (fs : List String)
      (rp rf : DownloadRun),
      rp = downloadProtocVersion goos goarch requestOk createOk copyOk unzipOk
          unzipEffect tmpDir version cacheDir fs →
      rf = downloadFlatcVersion goos goarch distroEnv requestOk createOk copyOk unzipOk
          unzipEffect tmpDir version cacheDir fs →
      (∀ platform, getProtocOSandArch goos goarch = .ok platform →
        rp.tempCreated = true →
        filepathJoin [tmpDir, protocZipName version platform] ∉ rp.fs) ∧
      (∀ exe, rp.result = .ok exe →
        exe = filepathJoin [cacheDir, "bin", getExecutableName goos "protoc"]) ∧
      (∀ system addition,
        getFlatcOSandAddition goos goarch distroEnv = .ok (system, addition) →
        rf.tempCreated = true →
        filepathJoin [tmpDir, flatcZipName system addition] ∉ rf.fs) ∧
      (∀ exe, rf.result = .ok exe →
        exe = filepathJoin [cacheDir, getExecutableName goos "flatc"]) := by
  intro goos goarch distroEnv requestOk createOk copyOk unzipOk unzipEffect
    tmpDir version cacheDir fs rp rf hp hf
  subst hp hf
  refine ⟨?_, ?_, ?_, ?_⟩
  · intro platform hplat
    cases requestOk <;> cases createOk <;> cases copyOk <;> cases unzipOk <;>
      simp [downloadProtocVersion, hplat, not_mem_removeFile]
  · intro exe hexe
    cases e : getProtocOSandArch goos goarch with
    | error pe =>
      rw [downloadProtocVersion] at hexe
      simp [e] at hexe
    | ok platform =>
      rw [downloadProtocVersion] at hexe
      cases requestOk <;> cases createOk <;> cases copyOk <;> cases unzipOk <;>
        simp [e] at hexe <;> exact hexe.symm
  · intro system addition hplat
    cases requestOk <;> cases createOk <;> cases copyOk <;> cases unzipOk <;>
      simp [downloadFlatcVersion, hplat, not_mem_removeFile]
  · intro exe hexe
    cases e : getFlatcOSandAddition goos goarch distroEnv with
    | error pe =>
      rw [downloadFlatcVersion] at hexe
      simp [e] at hexe
    | ok pr =>
      rw [downloadFlatcVersion] at hexe
      cases requestOk <;> cases createOk <;> cases copyOk <;> cases unzipOk <;>
        simp [e] at hexe <;> exact hexe.symm

/-- C8 witness: a fully successful run on linux/amd64 — the temporary
archive is gone afterwards and the result is the documented in-cache
path. -/
theorem C8_download_witness :
    (downloadProtocVersion "linux" "amd64" true true true true id
        "/tmp" "31.0" "/cache/protoc-31.0" []).tempCreated = true ∧
    "/tmp/protoc-31.0-linux-x86_64.zip" ∉
      (downloadProtocVersion "linux" "amd64" true true true true id
        "/tmp" "31.0" "/cache/protoc-31.0" []).fs ∧
    (downloadFlatcVersion "linux" "amd64" none true true true true id
        "/tmp" "31.0" "/cache/flatc-31.0" []).tempCreated = true ∧
    "/tmp/Linux.flatc.binary.g++-13.zip" ∉
      (downloadFlatcVersion "linux" "amd64" none true true true true id
        "/tmp" "31.0" "/cache/flatc-31.0" []).fs := by
  obtain ⟨h1, -, h3, -⟩ := C8_download_temp_cleanup_and_path "linux" "amd64" none
    true true true true id "/tmp" "31.0" "/cache/protoc-31.0" [] _ _ rfl rfl
  obtain ⟨-, -, h3f, -⟩ := C8_download_temp_cleanup_and_path "linux" "amd64" none
    true true true true id "/tmp" "31.0" "/cache/flatc-31.0" [] _ _ rfl rfl
  refine ⟨by decide, ?_, by decide, ?_⟩
  · have := h1 "linux-x86_64" (by decide) (by decide)
    rwa [show filepathJoin ["/tmp", protocZipName "31.0" "linux-x86_64"] =
      "/tmp/protoc-31.0-linux-x86_64.zip" from by decide] at this
  · have := h3f "Linux" ".g++-13" (by decide) (by decide)
    rwa [show filepathJoin ["/tmp", flatcZipName "Linux" ".g++-13"] =
      "/tmp/Linux.flatc.binary.g++-13.zip" from by decide] at this

/-- C10: a version environment variable that is set but empty is treated
as the explicit tag "" — no release-listing request is made
(networkCalled = false), the install directory is cacheRoot/protoc-
resp. cacheRoot/flatc-, and needsDownload comes from the ordinary
filesystem probe of each resolver. -/
theorem C10_empty_version_is_explicit_tag :
    ∀ (onPath : Bool) (latest : Except String String)
      (fs : String → Option FileInfo) (goos cacheDir : String),
      getProtocCache (some "") onPath latest fs goos cacheDir =
        ⟨some "", some (protocCachePath cacheDir ""),
          (fs (protocExecPath cacheDir "" goos)).isNone, false, false⟩ ∧
      getFlatcCache (some "") onPath latest fs goos cacheDir =
        ⟨some "", some (flatcCachePath cacheDir ""),
          (fs (flatcExecPath cacheDir "" goos)).elim true (fun d => !d.isDir),
          false, false⟩ ∧
      protocCachePath "/cache" "" = "/cache/protoc-" ∧
      flatcCachePath "/cache" "" = "/cache/flatc-" := by
  intro onPath latest fs goos cacheDir
  have htrim : stringsTrimPrefix "" "v" = "" := by decide
  refine ⟨?_, ?_, by decide, by decide⟩
  · simp only [getProtocCache, protocTail, if_neg (by decide : ¬ ("" : String) = "latest"),
      if_neg (by decide : ¬ ("" : String) = "local"), htrim]
    cases fs (protocExecPath cacheDir "" goos) <;> rfl
  · simp only [getFlatcCache, flatcTail, if_neg (by decide : ¬ ("" : String) = "latest"),
      if_neg (by decide : ¬ ("" : String) = "local"), htrim]
    cases e : fs (flatcExecPath cacheDir "" goos) with
    | none => rfl
    | some d => cases hd : d.isDir <;> simp [hd]

/-- C10 witness: concrete instantiation on an empty filesystem. -/
theorem C10_empty_version_witness :
    getProtocCache (some "") true (.error "unused") (fun _ => none)
        "linux" "/cache" = ⟨some "", some "/cache/protoc-", true, false, false⟩ ∧
    getFlatcCache (some "") true (.error "unused") (fun _ => none)
        "linux" "/cache" = ⟨some "", some "/cache/flatc-", true, false, false⟩ := by
  obtain ⟨h1, h2, -, -⟩ := C10_empty_version_is_explicit_tag true (.error "unused")
    (fun _ => none) "linux" "/cache"
  rw [h1, h2]
  exact ⟨by decide, by decide⟩

end Protogo
